import Mathlib

/-!
Verification of the ZOBOV void-finding pipeline (`python_tools/zobov.py`).

Shallow embedding: the numeric code works on float64 values; here those values
are modelled as exact rationals, and the per-element array operations of the
source are modelled as functions on lists.  Fallible steps (sys.exit, Python
TypeError, string-format mismatches) are modelled with `Option` / `Except`.
-/

namespace Revolver

/-! ## Tracer table and the binary position file

Source: `ZobovVoids.write_box_zobov` (lines 556-574) and
`ZobovVoids.reread_tracer_info` (lines 581-596).  The tracer table is an
(N, 6) array in survey mode and an (N, 3) array in box mode; the standard
columns are x, y, z, RA, Dec, redshift. -/

/-- Row of the tracer table, holding the six standard-format columns. -/
structure Tracer where
  x : ℚ
  y : ℚ
  z : ℚ
  ra : ℚ
  dec : ℚ
  red : ℚ
deriving DecidableEq

/-- Binary position file content: the int32 particle count followed by the
flat float64 payload, one full column at a time. -/
structure PosFile where
  nparts : ℕ
  payload : List ℚ
deriving DecidableEq

/-- Model of `write_box_zobov`: writes `num_part_total`, then columns 0,1,2 of
the tracer table, and in survey mode (`is_box = False`) also columns 3,4,5. -/
def write_box_zobov (is_box : Bool) (tracers : List Tracer) : PosFile :=
  { nparts := tracers.length
    payload :=
      tracers.map Tracer.x ++ tracers.map Tracer.y ++ tracers.map Tracer.z ++
        (if is_box then [] else
          tracers.map Tracer.ra ++ tracers.map Tracer.dec ++ tracers.map Tracer.red) }

/-- Rebuild a table from its six column lists (the (N, 6) array of the source). -/
def zip6 : List ℚ → List ℚ → List ℚ → List ℚ → List ℚ → List ℚ → List Tracer
  | a :: as, b :: bs, c :: cs, d :: ds, e :: es, f :: fs =>
      ⟨a, b, c, d, e, f⟩ :: zip6 as bs cs ds es fs
  | _, _, _, _, _, _ => []

/-- Model of `reread_tracer_info`: checks the stored count against
`num_part_total` (mismatch is fatal, modelled as `none`), then reads the three
position columns, and in survey mode also the three sky columns.  In box mode
the source leaves columns 3-5 of the freshly allocated `np.empty` table
uninitialized; the model fills them with zero, and no theorem below relies on
those columns in box mode. -/
def reread_tracer_info (is_box : Bool) (num_part_total : ℕ) (file : PosFile) :
    Option (List Tracer) :=
  if file.nparts = num_part_total then
    let n := file.nparts
    let xs := file.payload.take n
    let r1 := file.payload.drop n
    let ys := r1.take n
    let r2 := r1.drop n
    let zs := r2.take n
    let r3 := r2.drop n
    if is_box then
      some (zip6 xs ys zs (List.replicate n 0) (List.replicate n 0) (List.replicate n 0))
    else
      let ras := r3.take n
      let r4 := r3.drop n
      let decs := r4.take n
      let r5 := r4.drop n
      let reds := r5.take n
      some (zip6 xs ys zs ras decs reds)
  else none

/-! ## Periodic wrap (box mode)

Source: `ZobovVoids.__init__`, lines 89-95.  Coordinates strictly above the
box length get the box length subtracted once, then coordinates strictly below
zero get it added once. -/

/-- Model of the per-coordinate periodic wrap of lines 90-95: first the mask
`coord > box_length` subtracts `box_length`, then (on the updated value) the
mask `coord < 0` adds `box_length`. -/
def pbc_wrap (box_length coord : ℚ) : ℚ :=
  let c1 := if box_length < coord then coord - box_length else coord
  if c1 < 0 then c1 + box_length else c1

/-! ## Buffer synthesis: low-redshift cap radii and enclosing box size

Source: `ZobovVoids.generate_buffer`, lines 372-385 and 469-471. -/

/-- Model of the low-redshift cap radial extents (lines 376-381).  Here `d`
stands for `comoving_distance(z_low)` (a cosmology-service value), `s` for the
mean inter-particle separation, and `etafac` for `mock_dens_ratio ** (-1/3)`.
The source computes `r_high = d - s * etafac` and `r_low = r_high - s`, then
resets a negative `r_high` to `d` and a negative `r_low` to `0`. -/
def low_cap_radii (d s etafac : ℚ) : ℚ × ℚ :=
  let r_high := d - s * etafac
  let r_low := r_high - s
  let r_high2 := if r_high < 0 then d else r_high
  let r_low2 := if r_low < 0 then 0 else r_low
  (r_low2, r_high2)

/-- Statement of the claim wording for the low-cap radii: both radii clamped
to be nonnegative, i.e. replaced by `max` with zero. -/
def low_cap_radii_claimed (d s etafac : ℚ) : ℚ × ℚ :=
  let r_high := d - s * etafac
  let r_low := r_high - s
  (max r_low 0, max r_high 0)

/-- A point of the survey volume (comoving Cartesian coordinates). -/
structure Point where
  x : ℚ
  y : ℚ
  z : ℚ
deriving DecidableEq

/-- Largest absolute coordinate appearing in a list of points, the model of
`np.max(np.abs(arr[:, :3]))` (zero on the empty list, on which the source
`np.max` would fail; all uses below are on nonempty lists). -/
def maxAbsCoord (pts : List Point) : ℚ :=
  pts.foldr (fun p m => max (max |p.x| (max |p.y| |p.z|)) m) 0

/-- Model of line 470 of the source: the enclosing cube side is computed from
the buffer particles alone, `2 * max |buffer coordinate| + 1`. -/
def box_length_from_buffers (buffers : List Point) : ℚ :=
  2 * maxAbsCoord buffers + 1

/-- Statement of the claim wording: the cube side computed from the tracers
and the buffers together. -/
def box_length_claimed (tracers buffers : List Point) : ℚ :=
  2 * maxAbsCoord (tracers ++ buffers) + 1

/-! ## Survey-mode volume reweighting (basic scaling step)

Source: `ZobovVoids.zobov_wrapper`, lines 695-706.  The sentinel volume marking
edge-contaminated cells is `1.0 / 0.9e30`. -/

/-- Sentinel Voronoi volume written by `checkedges` and tested at line 702:
the exact rational value of `1.0 / 0.9e30`. -/
def edge_sentinel : ℚ := 1 / (9 * 10 ^ 29)

/-- Model of lines 702-703: each cell volume not equal to the sentinel is
multiplied by `tracer_dens * box_length ** 3 / num_part_total`; sentinel cells
are left untouched by the masked in-place multiplication. -/
def renormalize_volumes (tracer_dens box_length : ℚ) (num_part_total : ℕ)
    (vols : List ℚ) : List ℚ :=
  vols.map fun v =>
    if v = edge_sentinel then v
    else v * (tracer_dens * box_length ^ 3 / (num_part_total : ℚ))

/-! ## Watershed post-processing of voids

Source: `ZobovVoids.postprocess_voids` (lines 784-979).  Inputs: one row per
candidate zone from the sorted list file (candidate `i` stays aligned with
hierarchy line `hierarchy[sorted_order[i]]`), and the nested hierarchy
descriptor of that candidate.  The hard-coded policy parameters of lines
799-806 are reproduced below. -/

/-- Row of the candidate list file after the ascending sort on core density:
zone id (column 0), edge flag (column 1), core particle (column 2), core
density (column 3), zone volume (column 4), zone particle count (column 5) and
the density ratio of column 9. -/
structure Candidate where
  vid : ℤ
  edge : ℤ
  corePart : ℤ
  coredens : ℚ
  vol : ℚ
  npart : ℤ
  rlast : ℚ
deriving DecidableEq

/-- One merge step of a hierarchy descriptor: the density ratio `r_k` and the
zones `z_k,*` that the step would absorb (token count `n_k` is the length). -/
structure MergeStep where
  rval : ℚ
  zones : List ℤ
deriving DecidableEq

/-- Hierarchy descriptor of one candidate: the merge steps in order, then the
terminating pair `0, r_stop`. -/
structure VoidLine where
  steps : List MergeStep
  rstop : ℚ
deriving DecidableEq

/-- Hard-coded policy switch of line 799: no void merging. -/
def dont_merge : Bool := true

/-- Hard-coded policy switch of line 800. -/
def use_r_threshold : Bool := false

/-- Hard-coded policy value of line 801. -/
def r_threshold : ℚ := 1

/-- Hard-coded policy switch of line 802. -/
def use_link_density_threshold : Bool := false

/-- Hard-coded policy value of line 803. -/
def link_density_threshold : ℚ := 1

/-- Hard-coded policy switch of line 804: the already-absorbed-zone filter is
bypassed. -/
def count_all_voids : Bool := true

/-- Hard-coded policy switch of line 805. -/
def use_stripping : Bool := false

/-- Token at position 2 of the hierarchy line, read into `rval` at line 885:
the ratio of the first merge step, or the stop ratio when the descriptor has
no merge step (token layout `seed, 0, r_stop`). -/
def firstR (l : VoidLine) : ℚ :=
  match l.steps with
  | [] => l.rstop
  | s :: _ => s.rval

/-- Zones listed in the first merge step of a hierarchy line (empty when the
line has no merge step). -/
def firstZones (l : VoidLine) : List ℤ :=
  match l.steps with
  | [] => []
  | s :: _ => s.zones

/-- Mutable state of the zone-adding loop of lines 897-919. -/
structure LoopState where
  zonelist : List ℤ
  zonestoadd : List ℤ
  num_adds : ℕ
  total_vol : ℚ
  total_parts : ℤ
  rstopadd : ℚ
  add_more : Bool
deriving DecidableEq

/-- Largest element of a rational list, zero if empty (the source `max` fails
on an empty list; this expression is only reached behind the dead
`use_r_threshold` switch). -/
def maxListQ (xs : List ℚ) : ℚ := xs.foldr max 0

/-- Values of a list-file column restricted to the candidates whose zone id
is in `zs`, the model of `column[np.in1d(vid, zs)]`. -/
def subColumn (f : Candidate → ℚ) (cands : List Candidate) (zs : List ℤ) : List ℚ :=
  (cands.filter (fun d => decide (d.vid ∈ zs))).map f

/-- Integer variant of `subColumn`, for the particle-count column. -/
def subColumnZ (f : Candidate → ℤ) (cands : List Candidate) (zs : List ℤ) : List ℤ :=
  (cands.filter (fun d => decide (d.vid ∈ zs))).map f

/-- Body of one iteration of the while loop of lines 897-919, for the merge
step `s`.  Under the hard-coded `dont_merge` the first branch always fires:
`zonestoadd` is recorded, `rstopadd` becomes the ratio of the step, and
`add_more` is cleared; the merging else-branch is retained faithfully but is
dead. -/
def voidStep (cands : List Candidate) (coredens : ℚ) (st : LoopState)
    (s : MergeStep) : LoopState :=
  let zonestoadd := s.zones
  let dens := s.rval * coredens
  let rsublist := subColumn Candidate.rlast cands zonestoadd
  let volsublist := subColumn Candidate.vol cands zonestoadd
  let partsublist := subColumnZ Candidate.npart cands zonestoadd
  if dont_merge || (use_link_density_threshold && decide (link_density_threshold < dens))
      || (use_r_threshold && decide (r_threshold < maxListQ rsublist)) then
    { st with zonestoadd := zonestoadd, rstopadd := s.rval, add_more := false }
  else
    { st with
        zonestoadd := zonestoadd
        zonelist := st.zonelist ++ zonestoadd
        num_adds := st.num_adds + zonestoadd.length
        total_vol := st.total_vol + volsublist.sum
        total_parts := st.total_parts + partsublist.sum }

/-- While loop of lines 897-919: iterate over the merge steps while the next
step count is positive and `add_more` holds. -/
def voidLoop (cands : List Candidate) (coredens : ℚ) :
    List MergeStep → LoopState → LoopState
  | [], st => st
  | s :: rest, st =>
      if 0 < s.zones.length ∧ st.add_more = true then
        voidLoop cands coredens rest (voidStep cands coredens st s)
      else st

/-- Acceptance test of lines 888-889: `rval >= 1`, core density strictly below
`min_dens_cut`, zone particle count at least `void_min_num`, and either
`count_all_voids` or the zone not among the already counted zones. -/
def acceptVoid (min_dens_cut : ℚ) (void_min_num : ℤ) (counted : List ℤ)
    (c : Candidate) (l : VoidLine) : Bool :=
  decide (1 ≤ firstR l) && decide (c.coredens < min_dens_cut) &&
    decide (void_min_num ≤ c.npart) && (count_all_voids || decide (c.vid ∉ counted))

/-- Acceptance condition as worded by the claim: the three basic thresholds
alone, with the already-absorbed-zone filter bypassed. -/
def acceptVoidBasic (min_dens_cut : ℚ) (void_min_num : ℤ)
    (c : Candidate) (l : VoidLine) : Bool :=
  decide (1 ≤ firstR l) && decide (c.coredens < min_dens_cut) &&
    decide (void_min_num ≤ c.npart)

/-- Row emitted for an accepted seed: the fields of the new `_list.txt` row of
lines 955-958 together with the member-zone list (`zonelist`, used for
`counted_zones` and the member-particle selection) and the zones of the first
merge step (`zonestoadd`, used for the edge-flag test of line 934). -/
structure VoidResult where
  vid : ℤ
  corePart : ℤ
  coredens : ℚ
  zoneNumParts : ℤ
  numZones : ℕ
  totalParts : ℤ
  physVol : ℚ
  rstopOut : ℚ
  zonelist : List ℤ
  zonestoadd : List ℤ
  edgeFlagOut : ℤ
deriving DecidableEq

/-- Processing of one accepted candidate (lines 890-958): run the zone-adding
loop from the initial state of lines 893-896, compute the edge flag from the
candidate-level edge flags of the zones in `zonestoadd` (line 934), and apply
the `rstopadd > 10 ** 20` substitution of lines 952-953. -/
def mkVoidResult (cands : List Candidate) (meanvol : ℚ)
    (c : Candidate) (l : VoidLine) : VoidResult :=
  let st0 : LoopState :=
    { zonelist := [c.vid], zonestoadd := [], num_adds := 0, total_vol := c.vol,
      total_parts := c.npart, rstopadd := c.rlast, add_more := true }
  let st := voidLoop cands c.coredens l.steps st0
  let ef : ℤ :=
    if cands.any (fun d => decide (d.vid ∈ st.zonestoadd) && decide (d.edge = 1))
    then 1 else 0
  let rout := if (10 : ℚ) ^ 20 < st.rstopadd then -1 else st.rstopadd
  { vid := c.vid, corePart := c.corePart, coredens := c.coredens,
    zoneNumParts := c.npart, numZones := st.num_adds + 1,
    totalParts := st.total_parts, physVol := st.total_vol * meanvol,
    rstopOut := rout, zonelist := st.zonelist, zonestoadd := st.zonestoadd,
    edgeFlagOut := ef }

/-- Main candidate loop of lines 879-958, threading `counted_zones` exactly as
the source does: accepted seeds append their member-zone list to the counted
zones and contribute one output row; rejected candidates contribute nothing. -/
def processVoids (cands : List Candidate) (min_dens_cut : ℚ) (void_min_num : ℤ)
    (meanvol : ℚ) : List (Candidate × VoidLine) → List ℤ → List VoidResult
  | [], _ => []
  | (c, l) :: rest, counted =>
      if acceptVoid min_dens_cut void_min_num counted c l then
        let res := mkVoidResult cands meanvol c l
        res :: processVoids cands min_dens_cut void_min_num meanvol rest
          (counted ++ res.zonelist)
      else processVoids cands min_dens_cut void_min_num meanvol rest counted

/-- Model of `postprocess_voids` on the aligned sorted candidate and hierarchy
rows: the list of output structures. -/
def postprocess_voids (min_dens_cut : ℚ) (void_min_num : ℤ) (meanvol : ℚ)
    (input : List (Candidate × VoidLine)) : List VoidResult :=
  processVoids (input.map Prod.fst) min_dens_cut void_min_num meanvol input []

/-! ## Eviction and reload of the tracer table

Source: `ZobovVoids.delete_tracer_info` (lines 576-579) and the guard of
`ZobovVoids.find_void_circumcentres` (lines 1008-1010).  The field
`self.tracers` is dynamically typed: after eviction it holds the integer `0`,
on which the Python built-in `len` raises `TypeError`. -/

/-- Dynamic content of the `self.tracers` attribute: either a scalar (the
integer written by `delete_tracer_info`) or a genuine tracer table. -/
inductive TracersField where
  | scalar (n : ℤ)
  | table (t : List Tracer)
deriving DecidableEq

/-- Model of `delete_tracer_info` (line 579): the attribute is overwritten
with the plain integer zero. -/
def delete_tracer_info (_s : TracersField) : TracersField :=
  TracersField.scalar 0

/-- Python built-in `len` on the dynamically typed attribute: defined for a
table, a `TypeError` for an integer. -/
def pyLen : TracersField → Except String ℕ
  | TracersField.scalar _ => Except.error "TypeError: object of type int has no len()"
  | TracersField.table t => Except.ok t.length

/-- Guard of lines 1008-1010: evaluate `len(self.tracers)`, compare with
`num_part_total`, and reload from the position file on mismatch (a reload
count mismatch is the fatal exit of `reread_tracer_info`). -/
def ensure_tracers (is_box : Bool) (num_part_total : ℕ) (file : PosFile)
    (s : TracersField) : Except String (List Tracer) :=
  match pyLen s with
  | Except.error e => Except.error e
  | Except.ok n =>
      if n = num_part_total then
        match s with
        | TracersField.table t => Except.ok t
        | TracersField.scalar _ => Except.error "unreachable"
      else
        match reread_tracer_info is_box num_part_total file with
        | some t => Except.ok t
        | none => Except.error "nparts in pos.dat file does not match num_part_total"

/-! ## Cluster catalogue formatting (box mode)

Source: `ZobovVoids.postprocess_clusters`, lines 1522-1525 and 1560-1562 (the
nine-entry box-mode row) and lines 1579-1582 (the `np.savetxt` call whose
format string carries eleven conversion specifiers). -/

/-- Box-mode cluster catalogue row of lines 1561-1562: nine entries. -/
def cluster_box_row (cid x y z effRad deltaMax avgDens lam densR : ℚ) : List ℚ :=
  [cid, x, y, z, effRad, deltaMax, avgDens, lam, densR]

/-- Format string of the box-mode `np.savetxt` call at line 1581. -/
def cluster_box_fmt : String :=
  "%d %0.6f %0.6f %0.6f %0.6f %0.6f %0.6f %0.6f %0.6f %d %d"

/-- Number of percent conversion specifiers in a format string (none of the
format strings of the source contain a literal percent escape). -/
def countSpecifiers (s : String) : ℕ :=
  (s.toList.filter (fun ch => ch = '%')).length

/-- Python percent-formatting of one row: succeeds only when the number of
values matches the number of specifiers, raising `TypeError` otherwise. -/
def percentFormat (nspec : ℕ) (row : List ℚ) : Except String Unit :=
  if row.length < nspec then
    Except.error "TypeError: not enough arguments for format string"
  else if nspec < row.length then
    Except.error "TypeError: not all arguments converted during string formatting"
  else Except.ok ()

/-- Model of `np.savetxt` with a single multi-specifier format string: each
row is formatted with the format string in turn; the first failing row raises.
With zero rows nothing is formatted and the call succeeds. -/
def savetxt (fmt : String) : List (List ℚ) → Except String Unit
  | [] => Except.ok ()
  | r :: rs =>
      match percentFormat (countSpecifiers fmt) r with
      | Except.error e => Except.error e
      | Except.ok _ => savetxt fmt rs

/-- Box-mode cluster catalogue write step of line 1581. -/
def save_box_cluster_catalogue (rows : List (List ℚ)) : Except String Unit :=
  savetxt cluster_box_fmt rows

/-! ## Concrete inputs used to evaluate the model -/

/-- Candidate of zone 5 whose own candidate-level edge flag is 1. -/
def exCand5 : Candidate :=
  { vid := 5, edge := 1, corePart := 0, coredens := 0, vol := 1, npart := 1, rlast := 2 }

/-- Hierarchy line of zone 5 with no merge step and stop ratio 2. -/
def exLine5 : VoidLine := { steps := [], rstop := 2 }

/-- One-candidate post-processing input built from zone 5. -/
def exInput5 : List (Candidate × VoidLine) := [(exCand5, exLine5)]

/-- Two accepted candidates with distinct zone ids. -/
def exInputTwo : List (Candidate × VoidLine) :=
  [({ vid := 1, edge := 0, corePart := 0, coredens := 0, vol := 1, npart := 1, rlast := 2 },
    { steps := [], rstop := 2 }),
   ({ vid := 2, edge := 0, corePart := 3, coredens := 1/2, vol := 1, npart := 1, rlast := 3 },
    { steps := [], rstop := 3 })]

/-- One tracer and one buffer particle, the tracer farther from the origin
than every buffer. -/
def exTracerPts : List Point := [{ x := 5, y := 0, z := 0 }]

/-- Buffer list for the box-length evaluation. -/
def exBufferPts : List Point := [{ x := 1, y := 0, z := 0 }]

/-- One survey-mode tracer row with six distinct column values. -/
def exTracerRow : Tracer := { x := 1, y := 2, z := 3, ra := 4, dec := 5, red := 6 }

/-! ## Helper lemmas on the void post-processing loop -/

theorem voidLoop_of_not_add_more (cands : List Candidate) (cd : ℚ)
    (steps : List MergeStep) (st : LoopState) (h : st.add_more = false) :
    voidLoop cands cd steps st = st := by
  cases steps with
  | nil => rfl
  | cons s rest => simp [voidLoop, h]

theorem voidStep_eq (cands : List Candidate) (cd : ℚ) (st : LoopState) (s : MergeStep) :
    voidStep cands cd st s =
      { st with zonestoadd := s.zones, rstopadd := s.rval, add_more := false } := by
  simp [voidStep, dont_merge]

theorem voidLoop_char (cands : List Candidate) (cd : ℚ) (l : VoidLine) (st0 : LoopState)
    (h : st0.add_more = true) (h0 : st0.zonestoadd = []) :
    (voidLoop cands cd l.steps st0).zonelist = st0.zonelist ∧
    (voidLoop cands cd l.steps st0).zonestoadd = firstZones l ∧
    (voidLoop cands cd l.steps st0).num_adds = st0.num_adds ∧
    (voidLoop cands cd l.steps st0).total_vol = st0.total_vol ∧
    (voidLoop cands cd l.steps st0).total_parts = st0.total_parts := by
  obtain ⟨steps, rstop⟩ := l
  cases steps with
  | nil => simp [voidLoop, firstZones, h0]
  | cons s rest =>
      by_cases hl : 0 < s.zones.length
      · have hstep : voidLoop cands cd (s :: rest) st0 =
            voidLoop cands cd rest (voidStep cands cd st0 s) := by
          simp [voidLoop, hl, h]
        have hrest : voidLoop cands cd rest (voidStep cands cd st0 s) =
            voidStep cands cd st0 s := by
          apply voidLoop_of_not_add_more
          rw [voidStep_eq]
        rw [hstep, hrest, voidStep_eq]
        simp [firstZones]
      · have hz : s.zones = [] := List.eq_nil_of_length_eq_zero (by omega)
        simp [voidLoop, hl, firstZones, hz, h0]

theorem mkVoidResult_char (cands : List Candidate) (mv : ℚ) (c : Candidate) (l : VoidLine) :
    (mkVoidResult cands mv c l).vid = c.vid ∧
    (mkVoidResult cands mv c l).zonelist = [c.vid] ∧
    (mkVoidResult cands mv c l).zonestoadd = firstZones l ∧
    (mkVoidResult cands mv c l).numZones = 1 ∧
    (mkVoidResult cands mv c l).edgeFlagOut =
      (if cands.any (fun d => decide (d.vid ∈ firstZones l) && decide (d.edge = 1))
       then 1 else 0) := by
  have hc := voidLoop_char cands c.coredens l
    { zonelist := [c.vid], zonestoadd := [], num_adds := 0, total_vol := c.vol,
      total_parts := c.npart, rstopadd := c.rlast, add_more := true } rfl rfl
  obtain ⟨h1, h2, h3, h4, h5⟩ := hc
  refine ⟨rfl, ?_, ?_, ?_, ?_⟩
  · exact h1
  · exact h2
  · simp only [mkVoidResult]
    rw [h3]
  · simp only [mkVoidResult]
    rw [h2]

theorem acceptVoid_eq (mdc : ℚ) (vmn : ℤ) (counted : List ℤ)
    (c : Candidate) (l : VoidLine) :
    acceptVoid mdc vmn counted c l = acceptVoidBasic mdc vmn c l := by
  simp [acceptVoid, acceptVoidBasic, count_all_voids]

theorem processVoids_eq_filterMap (cands : List Candidate) (mdc : ℚ) (vmn : ℤ) (mv : ℚ)
    (inp : List (Candidate × VoidLine)) :
    ∀ counted : List ℤ,
      processVoids cands mdc vmn mv inp counted =
        (inp.filter fun p => acceptVoidBasic mdc vmn p.1 p.2).map
          (fun p => mkVoidResult cands mv p.1 p.2) := by
  induction inp with
  | nil => intro counted; rfl
  | cons p rest ih =>
      intro counted
      obtain ⟨c, l⟩ := p
      by_cases h : acceptVoidBasic mdc vmn c l = true
      · simp only [processVoids, acceptVoid_eq, h, if_true, List.filter_cons, List.map_cons, ih]
      · have h2 : acceptVoidBasic mdc vmn c l = false := by
          cases hb : acceptVoidBasic mdc vmn c l
          · rfl
          · exact absurd hb h
        simp only [processVoids, acceptVoid_eq, h2, List.filter_cons, ih]
        simp

/-! ## Claim C1: seed acceptance condition -/

/-- C1.  In void post-processing, a candidate of the sorted list contributes a
row to the output exactly when `rval >= 1` (the first-merge ratio token),
its core density is strictly below `min_dens_cut`, and its zone particle count
is at least `void_min_num`: the output is the filtered list mapped through the
per-seed row builder, with the already-absorbed-zone filter bypassed by the
hard-coded `count_all_voids`. -/
theorem c1_seed_acceptance (mdc : ℚ) (vmn : ℤ) (mv : ℚ)
    (input : List (Candidate × VoidLine)) :
    postprocess_voids mdc vmn mv input =
      (input.filter fun p =>
          decide (1 ≤ firstR p.2) && decide (p.1.coredens < mdc) &&
            decide (vmn ≤ p.1.npart)).map
        (fun p => mkVoidResult (input.map Prod.fst) mv p.1 p.2) :=
  processVoids_eq_filterMap (input.map Prod.fst) mdc vmn mv input []

/-! ## Claim C2: member zones and disjointness under the no-merge policy -/

/-- C2.  Under the hard-coded `dont_merge` policy every accepted seed
contributes a member-zone list equal to its own zone alone; consequently, when
the candidate zone ids of the input are pairwise distinct, no zone id appears
in the member-zone lists of two different output structures. -/
theorem c2_zone_disjointness (mdc : ℚ) (vmn : ℤ) (mv : ℚ)
    (input : List (Candidate × VoidLine))
    (hnd : (input.map fun p => p.1.vid).Nodup) :
    (∀ res ∈ postprocess_voids mdc vmn mv input, res.zonelist = [res.vid]) ∧
    (postprocess_voids mdc vmn mv input).Pairwise
      (fun r1 r2 => ∀ zid, zid ∈ r1.zonelist → zid ∉ r2.zonelist) := by
  have hrw := processVoids_eq_filterMap (input.map Prod.fst) mdc vmn mv input []
  constructor
  · intro res hres
    rw [show postprocess_voids mdc vmn mv input =
        processVoids (input.map Prod.fst) mdc vmn mv input [] from rfl, hrw] at hres
    obtain ⟨p, _hp, rfl⟩ := List.mem_map.mp hres
    obtain ⟨hv, hz, _⟩ := mkVoidResult_char (input.map Prod.fst) mv p.1 p.2
    rw [hz, hv]
  · rw [show postprocess_voids mdc vmn mv input =
        processVoids (input.map Prod.fst) mdc vmn mv input [] from rfl, hrw]
    have hpw : input.Pairwise (fun p q => p.1.vid ≠ q.1.vid) := by
      exact List.pairwise_map.mp hnd
    have hpwf : (input.filter fun p => acceptVoidBasic mdc vmn p.1 p.2).Pairwise
        (fun p q => p.1.vid ≠ q.1.vid) := hpw.filter _
    rw [List.pairwise_map]
    refine hpwf.imp ?_
    intro p q hne zid hz1 hz2
    obtain ⟨hvp, hzp, _⟩ := mkVoidResult_char (input.map Prod.fst) mv p.1 p.2
    obtain ⟨hvq, hzq, _⟩ := mkVoidResult_char (input.map Prod.fst) mv q.1 q.2
    rw [hzp, List.mem_singleton] at hz1
    rw [hzq, List.mem_singleton] at hz2
    exact hne (hz1 ▸ hz2 ▸ rfl)

/-- Witness for C2 on a concrete two-candidate input with distinct zone ids. -/
theorem c2_zone_disjointness_witness :
    ((exInputTwo.map fun p => p.1.vid).Nodup) ∧
    ((∀ res ∈ postprocess_voids 1 1 1 exInputTwo, res.zonelist = [res.vid]) ∧
      (postprocess_voids 1 1 1 exInputTwo).Pairwise
        (fun r1 r2 => ∀ zid, zid ∈ r1.zonelist → zid ∉ r2.zonelist)) :=
  ⟨by decide, c2_zone_disjointness 1 1 1 exInputTwo (by decide)⟩

/-! ## Claim C3: the output edge flag -/

/-- C3 counterexample.  For the one-candidate input `exInput5`, the accepted
structure absorbs exactly zone 5, the candidate-level edge flag of zone 5 is 1,
yet the output edge flag is 0: the flag is not computed from the absorbed zone
set. -/
theorem c3_edge_flag_counterexample :
    (postprocess_voids 1 1 1 exInput5).map (fun r => (r.edgeFlagOut, r.zonelist)) =
      [(0, [5])] ∧
    exCand5.vid = 5 ∧ exCand5.edge = 1 := by
  decide

/-- C3 amended.  Every output structure is the row built for some input
candidate, and its edge flag is 1 exactly when some candidate whose zone id is
listed in the first merge step of that hierarchy line (the zones the first
merge would have absorbed, never actually merged under `dont_merge`) has
candidate-level edge flag 1; the edge flag of the seed zone itself is not
consulted. -/
theorem c3_edge_flag_amended (mdc : ℚ) (vmn : ℤ) (mv : ℚ)
    (input : List (Candidate × VoidLine)) (res : VoidResult)
    (hres : res ∈ postprocess_voids mdc vmn mv input) :
    ∃ p, p ∈ input ∧ res = mkVoidResult (input.map Prod.fst) mv p.1 p.2 ∧
      res.edgeFlagOut =
        (if (input.map Prod.fst).any
            (fun d => decide (d.vid ∈ firstZones p.2) && decide (d.edge = 1))
         then 1 else 0) := by
  rw [show postprocess_voids mdc vmn mv input =
      processVoids (input.map Prod.fst) mdc vmn mv input [] from rfl,
    processVoids_eq_filterMap] at hres
  obtain ⟨p, hp, rfl⟩ := List.mem_map.mp hres
  obtain ⟨_, _, _, _, hef⟩ := mkVoidResult_char (input.map Prod.fst) mv p.1 p.2
  exact ⟨p, List.mem_of_mem_filter hp, rfl, hef⟩

/-- Witness for the amended C3 on the concrete input `exInput5`. -/
theorem c3_edge_flag_amended_witness :
    ∃ p, p ∈ exInput5 ∧
      mkVoidResult (exInput5.map Prod.fst) 1 exCand5 exLine5 =
        mkVoidResult (exInput5.map Prod.fst) 1 p.1 p.2 ∧
      (mkVoidResult (exInput5.map Prod.fst) 1 exCand5 exLine5).edgeFlagOut =
        (if (exInput5.map Prod.fst).any
            (fun d => decide (d.vid ∈ firstZones p.2) && decide (d.edge = 1))
         then 1 else 0) :=
  c3_edge_flag_amended 1 1 1 exInput5
    (mkVoidResult (exInput5.map Prod.fst) 1 exCand5 exLine5)
    (by
      rw [show postprocess_voids 1 1 1 exInput5 =
          [mkVoidResult (exInput5.map Prod.fst) 1 exCand5 exLine5] from rfl]
      exact List.mem_singleton_self _)

/-! ## Claim C4: binary position file round trip -/

theorem zip6_maps (t : List Tracer) :
    zip6 (t.map Tracer.x) (t.map Tracer.y) (t.map Tracer.z)
      (t.map Tracer.ra) (t.map Tracer.dec) (t.map Tracer.red) = t := by
  induction t with
  | nil => rfl
  | cons a t ih => simp [zip6, ih]

theorem zip6_box (t : List Tracer) :
    zip6 (t.map Tracer.x) (t.map Tracer.y) (t.map Tracer.z)
      (List.replicate t.length 0) (List.replicate t.length 0)
      (List.replicate t.length 0) =
      t.map (fun a => { x := a.x, y := a.y, z := a.z, ra := 0, dec := 0, red := 0 }) := by
  induction t with
  | nil => rfl
  | cons a t ih => simp [zip6, List.replicate_succ, ih]

theorem reread_write_roundtrip (is_box : Bool) (tracers : List Tracer) :
    ∃ t2, reread_tracer_info is_box tracers.length (write_box_zobov is_box tracers) =
        some t2 ∧
      t2.length = tracers.length ∧
      t2.map Tracer.x = tracers.map Tracer.x ∧
      t2.map Tracer.y = tracers.map Tracer.y ∧
      t2.map Tracer.z = tracers.map Tracer.z ∧
      (is_box = false → t2 = tracers) := by
  have hx : (tracers.map Tracer.x).length = tracers.length := List.length_map _ _
  have hy : (tracers.map Tracer.y).length = tracers.length := List.length_map _ _
  have hz : (tracers.map Tracer.z).length = tracers.length := List.length_map _ _
  have hra : (tracers.map Tracer.ra).length = tracers.length := List.length_map _ _
  have hdec : (tracers.map Tracer.dec).length = tracers.length := List.length_map _ _
  have hred : (tracers.map Tracer.red).length = tracers.length := List.length_map _ _
  cases is_box with
  | true =>
      refine ⟨tracers.map
        (fun a => { x := a.x, y := a.y, z := a.z, ra := 0, dec := 0, red := 0 }),
        ?_, ?_, ?_, ?_, ?_, ?_⟩
      · simp only [reread_tracer_info, write_box_zobov, if_true, List.append_nil,
          if_pos rfl, List.append_assoc]
        rw [List.take_left' hx, List.drop_left' hx, List.take_left' hy, List.drop_left' hy,
          List.take_of_length_le (le_of_eq hz)]
        rw [zip6_box]
      · simp
      · simp [List.map_map]
      · simp [List.map_map]
      · simp [List.map_map]
      · intro h
        exact Bool.noConfusion h
  | false =>
      refine ⟨tracers, ?_, rfl, rfl, rfl, rfl, fun _ => rfl⟩
      simp only [reread_tracer_info, write_box_zobov, if_pos rfl]
      simp only [Bool.false_eq_true, if_false, List.append_assoc]
      rw [List.take_left' hx, List.drop_left' hx, List.take_left' hy, List.drop_left' hy,
        List.take_left' hz, List.drop_left' hz, List.take_left' hra, List.drop_left' hra,
        List.take_left' hdec, List.drop_left' hdec, List.take_of_length_le (le_of_eq hred)]
      rw [zip6_maps]
      simp

/-- C4.  Writing the binary position file and re-reading it succeeds (the
count check passes) and reproduces the tracer table: the number of rows and
each stored column are recovered exactly; in survey mode the whole six-column
table is recovered. -/
theorem c4_pos_file_roundtrip (is_box : Bool) (tracers : List Tracer) :
    ∃ t2, reread_tracer_info is_box tracers.length (write_box_zobov is_box tracers) =
        some t2 ∧
      t2.length = tracers.length ∧
      t2.map Tracer.x = tracers.map Tracer.x ∧
      t2.map Tracer.y = tracers.map Tracer.y ∧
      t2.map Tracer.z = tracers.map Tracer.z ∧
      (is_box = false → t2 = tracers) :=
  reread_write_roundtrip is_box tracers

/-- Witness for C4 at a concrete one-row survey-mode table. -/
theorem c4_pos_file_roundtrip_witness :
    ∃ t2, reread_tracer_info false [exTracerRow].length
        (write_box_zobov false [exTracerRow]) = some t2 ∧
      t2.length = [exTracerRow].length ∧
      t2.map Tracer.x = [exTracerRow].map Tracer.x ∧
      t2.map Tracer.y = [exTracerRow].map Tracer.y ∧
      t2.map Tracer.z = [exTracerRow].map Tracer.z ∧
      (false = false → t2 = [exTracerRow]) :=
  c4_pos_file_roundtrip false [exTracerRow]

/-! ## Claim C5: periodic wrap (corrected) -/

/-- C5 counterexample.  A coordinate exactly equal to the box length is not
adjusted by the wrap and therefore does not lie in the half-open interval
`[0, L)`: with `L = 1` and input `1` the wrapped value is `1` and the strict
upper bound fails. -/
theorem c5_wrap_counterexample :
    pbc_wrap 1 1 = 1 ∧ ¬ pbc_wrap 1 1 < 1 := by
  decide

/-- C5 amended.  The wrap adds or subtracts the box length exactly once per
out-of-range coordinate (strictly above `L` or strictly below `0`), leaves
in-range coordinates unchanged, and for inputs within one box length of the
fiducial range, the result lies in the closed interval `[0, L]`; a coordinate
arriving exactly at `L` is kept there, so membership in `[0, L)` can fail. -/
theorem c5_wrap_amended (L x : ℚ) (hL : 0 < L) :
    (L < x → pbc_wrap L x = x - L) ∧
    (x < 0 → pbc_wrap L x = x + L) ∧
    (0 ≤ x → x ≤ L → pbc_wrap L x = x) ∧
    (-L ≤ x → x ≤ 2 * L → 0 ≤ pbc_wrap L x ∧ pbc_wrap L x ≤ L) := by
  simp only [pbc_wrap]
  refine ⟨?_, ?_, ?_, ?_⟩
  · intro h
    rw [if_pos h, if_neg (show ¬ x - L < 0 by linarith)]
  · intro h
    rw [if_neg (show ¬ L < x by linarith), if_pos h]
  · intro h0 h1
    rw [if_neg (show ¬ L < x by linarith), if_neg (show ¬ x < 0 by linarith)]
  · intro hlo hhi
    by_cases h : L < x
    · rw [if_pos h, if_neg (show ¬ x - L < 0 by linarith)]
      constructor <;> linarith
    · rw [if_neg h]
      by_cases h2 : x < 0
      · rw [if_pos h2]
        constructor <;> linarith
      · rw [if_neg h2]
        constructor <;> linarith

/-- Witness for the amended C5 at `L = 1`, `x = 3/2`. -/
theorem c5_wrap_amended_witness :
    (0 : ℚ) < 1 ∧
    (((1 : ℚ) < 3/2 → pbc_wrap 1 (3/2) = 3/2 - 1) ∧
      ((3/2 : ℚ) < 0 → pbc_wrap 1 (3/2) = 3/2 + 1) ∧
      ((0 : ℚ) ≤ 3/2 → (3/2 : ℚ) ≤ 1 → pbc_wrap 1 (3/2) = 3/2) ∧
      (-(1 : ℚ) ≤ 3/2 → (3/2 : ℚ) ≤ 2 * 1 →
        0 ≤ pbc_wrap 1 (3/2) ∧ pbc_wrap 1 (3/2) ≤ 1)) :=
  ⟨by decide, c5_wrap_amended 1 (3/2) (by decide)⟩

/-! ## Claim C6: basic volume scaling step -/

/-- C6.  The basic reweighting step preserves the number of cells, multiplies
every non-sentinel cell volume by exactly `tracer_dens * L ** 3 /
num_part_total`, and leaves every edge-sentinel cell volume unchanged. -/
theorem c6_volume_scaling (d L : ℚ) (N : ℕ) (vols : List ℚ) (i : ℕ)
    (h : i < vols.length) :
    (renormalize_volumes d L N vols).length = vols.length ∧
    (vols.getD i 0 ≠ edge_sentinel →
      (renormalize_volumes d L N vols).getD i 0 =
        vols.getD i 0 * (d * L ^ 3 / (N : ℚ))) ∧
    (vols.getD i 0 = edge_sentinel →
      (renormalize_volumes d L N vols).getD i 0 = vols.getD i 0) := by
  have hmap : (renormalize_volumes d L N vols).getD i 0 =
      (if vols.getD i 0 = edge_sentinel then vols.getD i 0
       else vols.getD i 0 * (d * L ^ 3 / (N : ℚ))) := by
    simp [renormalize_volumes, List.getD_eq_getElem?_getD, List.getElem?_map,
      List.getElem?_eq_getElem h]
  refine ⟨by simp [renormalize_volumes], fun hne => ?_, fun heq => ?_⟩
  · rw [hmap, if_neg hne]
  · rw [hmap, if_pos heq]

/-- Witness for C6 on a concrete two-cell volume list at index 0. -/
theorem c6_volume_scaling_witness :
    (0 : ℕ) < [  (2 : ℚ), edge_sentinel].length ∧
    ((renormalize_volumes 1 2 4 [(2 : ℚ), edge_sentinel]).length =
        [(2 : ℚ), edge_sentinel].length ∧
      ([(2 : ℚ), edge_sentinel].getD 0 0 ≠ edge_sentinel →
        (renormalize_volumes 1 2 4 [(2 : ℚ), edge_sentinel]).getD 0 0 =
          [(2 : ℚ), edge_sentinel].getD 0 0 * (1 * 2 ^ 3 / ((4 : ℕ) : ℚ))) ∧
      ([(2 : ℚ), edge_sentinel].getD 0 0 = edge_sentinel →
        (renormalize_volumes 1 2 4 [(2 : ℚ), edge_sentinel]).getD 0 0 =
          [(2 : ℚ), edge_sentinel].getD 0 0)) :=
  ⟨by decide, c6_volume_scaling 1 2 4 [(2 : ℚ), edge_sentinel] 0 (by decide)⟩

/-! ## Claim C7: enclosing cube side length (corrected) -/

/-- C7 counterexample.  With one tracer at distance 5 on the x axis and one
buffer at distance 1, the source computes the box length from the buffers
alone and gets 3, while the claimed maximum over tracers and buffers together
gives 11; the computed side is smaller than `2 * 5 + 1`, so the cube does not
enclose the tracer. -/
theorem c7_box_length_counterexample :
    box_length_from_buffers exBufferPts = 3 ∧
    box_length_claimed exTracerPts exBufferPts = 11 ∧
    box_length_from_buffers exBufferPts ≠ box_length_claimed exTracerPts exBufferPts ∧
    ¬ 2 * maxAbsCoord exTracerPts + 1 ≤ box_length_from_buffers exBufferPts := by
  have hb : maxAbsCoord exBufferPts = 1 := by
    show max (max |(1 : ℚ)| (max |(0 : ℚ)| |(0 : ℚ)|)) 0 = 1
    rw [abs_one, abs_zero, max_self]
    norm_num [max_def]
  have ht : maxAbsCoord exTracerPts = 5 := by
    show max (max |(5 : ℚ)| (max |(0 : ℚ)| |(0 : ℚ)|)) 0 = 5
    rw [abs_zero, abs_of_nonneg (show (0 : ℚ) ≤ 5 by norm_num), max_self]
    norm_num [max_def]
  have htb : maxAbsCoord (exTracerPts ++ exBufferPts) = 5 := by
    show max (max |(5 : ℚ)| (max |(0 : ℚ)| |(0 : ℚ)|))
        (max (max |(1 : ℚ)| (max |(0 : ℚ)| |(0 : ℚ)|)) 0) = 5
    rw [abs_zero, abs_one, abs_of_nonneg (show (0 : ℚ) ≤ 5 by norm_num), max_self]
    norm_num [max_def]
  refine ⟨?_, ?_, ?_, ?_⟩
  · rw [box_length_from_buffers, hb]
    norm_num
  · rw [box_length_claimed, htb]
    norm_num
  · rw [box_length_from_buffers, box_length_claimed, hb, htb]
    norm_num
  · rw [box_length_from_buffers, hb, ht]
    norm_num

theorem le_maxAbsCoord (pts : List Point) (p : Point) (hp : p ∈ pts) :
    |p.x| ≤ maxAbsCoord pts ∧ |p.y| ≤ maxAbsCoord pts ∧ |p.z| ≤ maxAbsCoord pts := by
  induction pts with
  | nil => cases hp
  | cons q rest ih =>
      have hstep : maxAbsCoord (q :: rest) =
          max (max |q.x| (max |q.y| |q.z|)) (maxAbsCoord rest) := rfl
      rcases List.mem_cons.mp hp with hq | hr
      · subst hq
        rw [hstep]
        refine ⟨?_, ?_, ?_⟩ <;>
          · apply le_max_of_le_left
            simp [le_max_iff, le_refl]
      · obtain ⟨h1, h2, h3⟩ := ih hr
        rw [hstep]
        exact ⟨le_max_of_le_right h1, le_max_of_le_right h2, le_max_of_le_right h3⟩

/-- C7 amended.  The enclosing cube side is computed from the buffer
particles alone, `L = 2 * max |buffer coordinate| + 1`; it satisfies
`2 * |coordinate| + 1 <= L` for every coordinate of every buffer particle,
but tracer positions do not enter the maximum. -/
theorem c7_box_length_amended (buffers : List Point) (p : Point) (hp : p ∈ buffers) :
    2 * |p.x| + 1 ≤ box_length_from_buffers buffers ∧
    2 * |p.y| + 1 ≤ box_length_from_buffers buffers ∧
    2 * |p.z| + 1 ≤ box_length_from_buffers buffers := by
  obtain ⟨h1, h2, h3⟩ := le_maxAbsCoord buffers p hp
  simp only [box_length_from_buffers]
  exact ⟨by linarith, by linarith, by linarith⟩

/-- Witness for the amended C7 on the concrete buffer list. -/
theorem c7_box_length_amended_witness :
    ({ x := 1, y := 0, z := 0 } : Point) ∈ exBufferPts ∧
    (2 * |(1 : ℚ)| + 1 ≤ box_length_from_buffers exBufferPts ∧
      2 * |(0 : ℚ)| + 1 ≤ box_length_from_buffers exBufferPts ∧
      2 * |(0 : ℚ)| + 1 ≤ box_length_from_buffers exBufferPts) :=
  ⟨by decide, c7_box_length_amended exBufferPts { x := 1, y := 0, z := 0 } (by decide)⟩

/-! ## Claim C8: low-redshift cap radii (corrected) -/

/-- C8 counterexample.  With `comoving(z_low) = 1`, separation `s = 30` and
unit density factor, the raw upper radius is `-29`: the claimed clamp to zero
would give `0`, but the source resets it to `comoving(z_low) = 1`. -/
theorem c8_low_cap_counterexample :
    low_cap_radii 1 30 1 = (0, 1) ∧
    low_cap_radii_claimed 1 30 1 = (0, 0) ∧
    (low_cap_radii 1 30 1).2 ≠ (low_cap_radii_claimed 1 30 1).2 := by
  have h1 : low_cap_radii 1 30 1 = (0, 1) := by
    simp only [low_cap_radii]
    norm_num
  have h2 : low_cap_radii_claimed 1 30 1 = (0, 0) := by
    simp only [low_cap_radii_claimed]
    norm_num [max_def]
  refine ⟨h1, h2, ?_⟩
  rw [h1, h2]
  norm_num

/-- C8 amended.  The raw radii are `r_hi = comoving(z_low) - s * eta ** (-1/3)`
and `r_lo = r_hi - s`; the lower radius is clamped to `max(r_lo, 0)`, while a
negative upper radius is reset to `comoving(z_low)` (not to zero); both
returned radii are nonnegative when the comoving distance is. -/
theorem c8_low_cap_amended (d s etafac : ℚ) (hd : 0 ≤ d) :
    (low_cap_radii d s etafac).1 = max (d - s * etafac - s) 0 ∧
    (low_cap_radii d s etafac).2 =
      (if d - s * etafac < 0 then d else d - s * etafac) ∧
    0 ≤ (low_cap_radii d s etafac).1 ∧
    0 ≤ (low_cap_radii d s etafac).2 := by
  refine ⟨?_, ?_, ?_, ?_⟩
  · simp only [low_cap_radii]
    by_cases hc : d - s * etafac - s < 0
    · rw [if_pos hc, eq_comm]
      exact max_eq_right (le_of_lt hc)
    · rw [if_neg hc, eq_comm]
      exact max_eq_left (not_lt.mp hc)
  · simp only [low_cap_radii]
  · simp only [low_cap_radii]
    by_cases hc : d - s * etafac - s < 0
    · rw [if_pos hc]
    · rw [if_neg hc]
      exact not_lt.mp hc
  · simp only [low_cap_radii]
    by_cases hc : d - s * etafac < 0
    · rw [if_pos hc]
      exact hd
    · rw [if_neg hc]
      exact not_lt.mp hc

/-- Witness for the amended C8 at `d = 1`, `s = 30`, unit density factor. -/
theorem c8_low_cap_amended_witness :
    (0 : ℚ) ≤ 1 ∧
    ((low_cap_radii 1 30 1).1 = max ((1 : ℚ) - 30 * 1 - 30) 0 ∧
      (low_cap_radii 1 30 1).2 =
        (if (1 : ℚ) - 30 * 1 < 0 then 1 else (1 : ℚ) - 30 * 1) ∧
      0 ≤ (low_cap_radii 1 30 1).1 ∧
      0 ≤ (low_cap_radii 1 30 1).2) :=
  ⟨by decide, c8_low_cap_amended 1 30 1 (by decide)⟩

/-! ## Claim C9: eviction and reload of the tracer table -/

/-- C9.  After `delete_tracer_info` the attribute holds the plain integer
zero, so the presence check `len(self.tracers)` of the circumcentre extractor
raises `TypeError` instead of detecting the missing table and reloading it:
the eviction-and-reload cycle never completes, whatever the previous state,
the mode and the position file on disk. -/
theorem c9_delete_reload_bug (s : TracersField) (is_box : Bool)
    (num_part_total : ℕ) (file : PosFile) :
    ensure_tracers is_box num_part_total file (delete_tracer_info s) =
      Except.error "TypeError: object of type int has no len()" := rfl

/-- Contrast for C9: the reload path itself is sound.  When the attribute
holds a table of the wrong length (so that `len` succeeds and the mismatch is
detected), the guard reloads the table written by `write_box_zobov` and
recovers all `num_part_total` rows. -/
theorem c9_reload_path_sound (is_box : Bool) (tracers : List Tracer)
    (stale : List Tracer) (hstale : stale.length ≠ tracers.length) :
    ∃ t2, ensure_tracers is_box tracers.length (write_box_zobov is_box tracers)
        (TracersField.table stale) = Except.ok t2 ∧
      t2.length = tracers.length := by
  obtain ⟨t2, hread, hlen, -⟩ := reread_write_roundtrip is_box tracers
  refine ⟨t2, ?_, hlen⟩
  simp only [ensure_tracers, pyLen]
  rw [if_neg hstale, hread]

/-! ## Claim C10: box-mode cluster catalogue format mismatch -/

/-- C10.  The box-mode cluster catalogue rows carry nine values but the format
string of the box-mode `np.savetxt` call carries eleven conversion specifiers,
so the write step raises `TypeError` whenever at least one cluster was
accepted (with zero rows nothing is formatted and the error branch is not
reached). -/
theorem c10_cluster_fmt_mismatch (rows : List (List ℚ)) (hne : rows ≠ [])
    (hrow : ∀ r ∈ rows, ∃ a b c d e f g h i, r = cluster_box_row a b c d e f g h i) :
    countSpecifiers cluster_box_fmt = 11 ∧
    save_box_cluster_catalogue rows =
      Except.error "TypeError: not enough arguments for format string" := by
  have hspec : countSpecifiers cluster_box_fmt = 11 := by decide
  refine ⟨hspec, ?_⟩
  cases rows with
  | nil => exact absurd rfl hne
  | cons r rs =>
      obtain ⟨a, b, c, d, e, f, g, h, i, hr⟩ := hrow r (List.mem_cons_self r rs)
      have hlen : r.length = 9 := by rw [hr]; rfl
      simp only [save_box_cluster_catalogue, savetxt, hspec, percentFormat, hlen]
      norm_num

/-- Witness for C10 on a single concrete catalogue row. -/
theorem c10_cluster_fmt_mismatch_witness :
    countSpecifiers cluster_box_fmt = 11 ∧
    save_box_cluster_catalogue [cluster_box_row 0 0 0 0 0 0 0 0 0] =
      Except.error "TypeError: not enough arguments for format string" :=
  c10_cluster_fmt_mismatch [cluster_box_row 0 0 0 0 0 0 0 0 0]
    (by simp [cluster_box_row])
    (by
      intro r hr
      rw [List.mem_singleton] at hr
      exact ⟨0, 0, 0, 0, 0, 0, 0, 0, 0, hr⟩)

end Revolver
